import Mathlib

/-!
Verification of the `smoke` thermal-control repository.

The numeric code (`src/smoke/trend.py`, `src/smoke/maintain.py`,
`src/smoke/fan.py`) is embedded shallowly over `ℚ`: Python floats become
rationals, Python lists become `List`, and the per-tick branch structure of
the control loop becomes a function from (precision, deviation, trend) to the
list of fan-speed commands issued during that tick, in order.
-/

namespace Smoke

/-! ### Trend estimator (`src/smoke/trend.py`) -/

/-- The consecutive pairs `(values[i], values[i+1])` visited by the loop
`for i, value in enumerate(values[1:])` in `simple_slope`. -/
def adjPairs (values : List (ℚ × ℚ)) : List ((ℚ × ℚ) × (ℚ × ℚ)) :=
  values.zip values.tail

/-- The `delta_ys` list built by the loop: `y_now - y_prev` for each pair. -/
def delta_ys (values : List (ℚ × ℚ)) : List ℚ :=
  (adjPairs values).map (fun p => p.2.2 - p.1.2)

/-- The `delta_xs` list built by the loop: `x_now - x_prev` for each pair. -/
def delta_xs (values : List (ℚ × ℚ)) : List ℚ :=
  (adjPairs values).map (fun p => p.2.1 - p.1.1)

/-- The `y_values` list as the source builds it: the loop appends `y_prev`
for each consecutive pair (the first `n` y-values), and then line 33 appends
`values[-1][1]`, the final y-value. -/
def y_values (values : List (ℚ × ℚ)) : List ℚ :=
  (adjPairs values).map (fun p => p.1.2) ++ [values.getLastI.2]

/-- `smoke.trend.simple_slope`, embedded from the source. `length` is
`len(values) - 1`; the guard returns `0.0` when `length < 1`. `fmean` is the
sum of the list divided by its length. -/
def simple_slope (values : List (ℚ × ℚ)) : ℚ :=
  if values.length < 2 then 0
  else
    let length : ℚ := (values.length : ℚ) - 1
    let avg_delta_y : ℚ := (delta_ys values).sum / length
    let avg_delta_x : ℚ := (delta_xs values).sum / length
    let avg_slope : ℚ := avg_delta_y / avg_delta_x
    let ys := y_values values
    let avg_y : ℚ := ys.sum / (ys.length : ℚ)
    let variance_y : ℚ := (ys.map (fun y => (y - avg_y) ^ 2)).sum / length
    avg_slope * (1 + variance_y / 100)

/-- `smoke.trend.find_trend`: places the y-samples on the synthetic x-axis
`x[i] = delta_x * i` and hands them to `simple_slope`. -/
def find_trend (ys : List ℚ) (delta_x : ℚ) : ℚ :=
  simple_slope ((ys.enum).map (fun p => (delta_x * (p.1 : ℚ), p.2)))

/-! ### History buffer (`NHistory` in `src/smoke/maintain.py`) -/

/-- `NHistory`: a list of values plus the capacity `_max`. -/
structure NHistory where
  values : List ℚ
  max : ℕ
deriving Repr, DecidableEq

/-- `NHistory.__init__(n)`: empty value list, capacity `n`. -/
def NHistory.init (n : ℕ) : NHistory := ⟨[], n⟩

/-- `NHistory.push`: append the value; if the length now exceeds `_max`,
`pop(0)` removes the oldest element. -/
def NHistory.push (h : NHistory) (v : ℚ) : NHistory :=
  let vs := h.values ++ [v]
  if h.max < vs.length then ⟨vs.drop 1, h.max⟩ else ⟨vs, h.max⟩

/-- Push a whole sequence of samples in arrival order. -/
def NHistory.pushAll (h : NHistory) (l : List ℚ) : NHistory :=
  l.foldl NHistory.push h

/-! ### Control policy (`maintain` in `src/smoke/maintain.py`)

Per tick, `maintain` computes `diff = target - current_temp` and `trend`, and
then walks an `if/elif` chain whose arms contain successive non-exclusive
`if` statements, each calling `fan.set_speed`.  The embedding returns the
list of speed levels passed to `fan.set_speed` during the tick, in program
order; the speed physically in force at the end of the tick is the last
command, or the previous speed when no command was issued.

`DIFFS = {large: P*10, medium: P*5, small: P}` and
`TRENDS = {large: P/10, medium: P/100, small: P/1000}`. -/

/-- The fan-speed commands issued by one tick of `maintain`, in order, as a
function of the precision constant, the deviation `diff = target - current`
and the trend value. -/
def tickCommands (P diff trend : ℚ) : List ℕ :=
  if diff < 0 - P then
    [0]
  else if P * 10 < diff then
    (if trend < P / 1000 then [3] else []) ++
    (if trend < P / 100 then [2] else []) ++
    (if trend < P / 10 then [1] else [])
  else if P * 5 < diff then
    (if trend < P / 1000 then [2] else []) ++
    (if trend < P / 100 then [1] else []) ++
    (if trend < P / 10 then [0] else []) ++
    (if trend < P / 1000 then [1] else []) ++
    (if trend < P / 100 then [0] else [])
  else
    []

/-- The speed in force after a tick: the last command issued, or the previous
speed when the tick issued no command. -/
def tickFinalSpeed (P diff trend : ℚ) (prev : ℕ) : ℕ :=
  ((tickCommands P diff trend).getLast?).getD prev

/-! ### Fan actuator (`src/smoke/fan.py`) -/

/-- `SPEEDS = [0, 35, 65, 90]`, the duty-cycle table. -/
def SPEEDS : List ℕ := [0, 35, 65, 90]

/-- Python list indexing `l[i]` with an `int` index: non-negative indices
index from the front, negative indices index from the back, and anything
else raises `IndexError` (modelled as `none`). -/
def pyGet (l : List ℕ) (i : ℤ) : Option ℕ :=
  if 0 ≤ i then l.get? i.toNat
  else if 0 ≤ i + (l.length : ℤ) then l.get? (i + (l.length : ℤ)).toNat
  else none

/-- `Fan.set_speed`: look up `SPEEDS[speed]`; on `IndexError` re-raise an
invalid-speed error, otherwise drive that duty cycle. `.ok d` means the fan
was silently commanded to duty cycle `d`; `.error` means the call raised. -/
def set_speed (speed : ℤ) : Except String ℕ :=
  match pyGet SPEEDS speed with
  | some d => .ok d
  | none => .error "invalid speed"

/-! ### Closed forms for the trend estimator -/

/-- The `avg_slope` factor of `simple_slope`, as computed by the source:
mean pairwise Δy divided by mean pairwise Δx. -/
def avg_slope_of (values : List (ℚ × ℚ)) : ℚ :=
  ((delta_ys values).sum / ((values.length : ℚ) - 1)) /
    ((delta_xs values).sum / ((values.length : ℚ) - 1))

/-- Mean of all `n+1` y-values of the input. -/
def mean_all_y (values : List (ℚ × ℚ)) : ℚ :=
  (values.map Prod.snd).sum / (values.length : ℚ)

/-- Sum of squared deviations of all `n+1` y-values from their mean, divided
by `n = length - 1`. -/
def variance_all_y (values : List (ℚ × ℚ)) : ℚ :=
  ((values.map Prod.snd).map (fun y => (y - mean_all_y values) ^ 2)).sum /
    ((values.length : ℚ) - 1)

/-- Defined from the words of claim C2 (spec §4.2 steps 4–5), for comparison
with `simple_slope` as embedded from the source: `avg_y` is the mean of only
the first `n` y-values (all except the final one) and `variance_y` sums over
those same first `n` values; the rest of the computation is unchanged. -/
def simple_slope_spec_firstN (values : List (ℚ × ℚ)) : ℚ :=
  if values.length < 2 then 0
  else
    let length : ℚ := (values.length : ℚ) - 1
    let avg_delta_y : ℚ := (delta_ys values).sum / length
    let avg_delta_x : ℚ := (delta_xs values).sum / length
    let avg_slope : ℚ := avg_delta_y / avg_delta_x
    let ys := (adjPairs values).map (fun p => p.1.2)
    let avg_y : ℚ := ys.sum / (ys.length : ℚ)
    let variance_y : ℚ := (ys.map (fun y => (y - avg_y) ^ 2)).sum / length
    avg_slope * (1 + variance_y / 100)

/-! ### Helper lemmas -/

lemma zip_tail_map_fst : ∀ l : List (ℚ × ℚ), (l.zip l.tail).map Prod.fst = l.dropLast
  | [] => rfl
  | [_] => rfl
  | a :: b :: t => by
    have ih := zip_tail_map_fst (b :: t)
    simpa using congrArg (List.cons a) ih

/-- The `y_values` list the loop builds is just all the y-values: the loop
collects `y` of every element but the last, and line 33 appends the last. -/
lemma y_values_eq_map_snd (l : List (ℚ × ℚ)) (hl : l ≠ []) :
    y_values l = l.map Prod.snd := by
  unfold y_values adjPairs
  have h1 : (l.zip l.tail).map (fun p => p.1.2) = (l.dropLast).map Prod.snd := by
    have := congrArg (List.map Prod.snd) (zip_tail_map_fst l)
    simpa [List.map_map] using this
  have h2 : l.getLastI = l.getLast hl := by
    rw [List.getLastI_eq_getLast?, List.getLast?_eq_getLast l hl]
  have h3 : (l.dropLast).map Prod.snd ++ [(l.getLast hl).2] =
      (l.dropLast ++ [l.getLast hl]).map Prod.snd := by simp
  rw [h1, h2, h3, List.dropLast_append_getLast hl]

lemma y_values_length (l : List (ℚ × ℚ)) (hl : l ≠ []) :
    (y_values l).length = l.length := by
  rw [y_values_eq_map_snd l hl, List.length_map]

/-- Telescoping: the pairwise differences of `f` over consecutive elements
sum to the difference of `f` at the endpoints. -/
lemma zip_tail_telescope (f : ℚ × ℚ → ℚ) :
    ∀ l : List (ℚ × ℚ), l ≠ [] →
      ((l.zip l.tail).map (fun p => f p.2 - f p.1)).sum = f l.getLastI - f l.headI
  | [], h => absurd rfl h
  | [x], _ => by
    show ((([x] : List (ℚ × ℚ)).zip []).map _).sum = _
    simp [List.getLastI, List.headI]
  | a :: b :: t, _ => by
    have ih := zip_tail_telescope f (b :: t) (by simp)
    have hlast : (a :: b :: t).getLastI = (b :: t).getLastI := by
      rw [List.getLastI_eq_getLast?, List.getLastI_eq_getLast?]
      rfl
    simp only [List.zip_cons_cons, List.tail_cons, List.map_cons, List.sum_cons]
    simp only [List.tail_cons] at ih
    rw [ih, hlast]
    show f b - f a + (f (b :: t).getLastI - f b) = f (b :: t).getLastI - f a
    ring

lemma delta_ys_sum (l : List (ℚ × ℚ)) (hl : l ≠ []) :
    (delta_ys l).sum = l.getLastI.2 - l.headI.2 :=
  zip_tail_telescope (fun p => p.2) l hl

lemma delta_xs_sum (l : List (ℚ × ℚ)) (hl : l ≠ []) :
    (delta_xs l).sum = l.getLastI.1 - l.headI.1 :=
  zip_tail_telescope (fun p => p.1) l hl

/-- `simple_slope` in closed form: the `avg_slope` factor times the variance
multiplier computed over all `n+1` y-values. -/
lemma simple_slope_closed (l : List (ℚ × ℚ)) (h : 2 ≤ l.length) :
    simple_slope l = avg_slope_of l * (1 + variance_all_y l / 100) := by
  have hne : l ≠ [] := by
    intro he; rw [he] at h; simp at h
  unfold simple_slope
  rw [if_neg (by omega)]
  unfold avg_slope_of variance_all_y mean_all_y
  rw [y_values_eq_map_snd l hne]
  simp only [List.length_map]

lemma push_max (h : NHistory) (v : ℚ) : (h.push v).max = h.max := by
  simp only [NHistory.push]
  split <;> rfl

/-- One `push` in closed form: append, then drop the overflow (0 or 1
elements) from the front. -/
lemma push_values (h : NHistory) (v : ℚ) (hle : h.values.length ≤ h.max) :
    (h.push v).values = (h.values ++ [v]).drop (h.values.length + 1 - h.max) := by
  simp only [NHistory.push]
  split
  · next hc =>
    have h1 : h.values.length + 1 - h.max = 1 := by
      simp only [List.length_append, List.length_cons, List.length_nil] at hc
      omega
    rw [h1]
  · next hc =>
    have h0 : h.values.length + 1 - h.max = 0 := by
      simp only [List.length_append, List.length_cons, List.length_nil] at hc
      omega
    rw [h0, List.drop_zero]

/-- `pushAll` in closed form: starting from a state within capacity, the
buffer afterwards holds the concatenation with the overflow dropped from the
front. -/
lemma pushAll_values : ∀ (l : List ℚ) (h : NHistory), h.values.length ≤ h.max →
    (h.pushAll l).values = (h.values ++ l).drop (h.values.length + l.length - h.max)
  | [], h, hle => by
    have h0 : h.values.length - h.max = 0 := by omega
    simp [NHistory.pushAll, h0]
  | v :: t, h, hle => by
    have hpv := push_values h v hle
    have hmax := push_max h v
    have hlen : (h.push v).values.length ≤ (h.push v).max := by
      rw [hpv, hmax]
      simp only [List.length_drop, List.length_append, List.length_cons,
        List.length_nil]
      omega
    have ih := pushAll_values t (h.push v) hlen
    show ((h.push v).pushAll t).values = _
    rw [ih, hpv, hmax]
    have hk : h.values.length + 1 - h.max ≤ (h.values ++ [v]).length := by
      simp only [List.length_append, List.length_cons, List.length_nil]
      omega
    rw [← List.drop_append_of_le_length hk, List.drop_drop]
    have harr : (h.values ++ [v]) ++ t = h.values ++ v :: t := by simp
    rw [harr]
    congr 1
    simp only [List.length_drop, List.length_append, List.length_cons,
      List.length_nil]
    omega

/-! ### Claims -/

/-- C6. For every input sequence with fewer than 2 elements, `simple_slope`
returns exactly 0. -/
theorem simple_slope_short_input_zero (l : List (ℚ × ℚ)) (h : l.length < 2) :
    simple_slope l = 0 := by
  unfold simple_slope
  rw [if_pos h]

/-- Witness for C6 at the empty list and a singleton. -/
theorem simple_slope_short_input_zero_witness :
    (([] : List (ℚ × ℚ)).length < 2 ∧ simple_slope [] = 0) ∧
      ([((10 : ℚ), (10 : ℚ))].length < 2 ∧ simple_slope [(10, 10)] = 0) :=
  ⟨⟨by decide, simple_slope_short_input_zero [] (by decide)⟩,
   ⟨by decide, simple_slope_short_input_zero [(10, 10)] (by decide)⟩⟩

/-- C5. Whenever `diff < -precision`, the tick issues exactly one command,
`set_speed(0)` (Off), whatever the trend; so Off is the final and only speed
commanded for that tick. -/
theorem maintain_negative_diff_off (P diff trend : ℚ) (prev : ℕ)
    (h : diff < 0 - P) :
    tickCommands P diff trend = [0] ∧ tickFinalSpeed P diff trend prev = 0 := by
  have hc : tickCommands P diff trend = [0] := by
    unfold tickCommands
    rw [if_pos h]
  exact ⟨hc, by simp [tickFinalSpeed, hc]⟩

/-- Witness for C5: precision 5, deviation −6, a huge negative trend, and a
previous speed of 2. -/
theorem maintain_negative_diff_off_witness :
    ((-6 : ℚ) < 0 - 5) ∧
      (tickCommands 5 (-6) (-1000) = [0] ∧ tickFinalSpeed 5 (-6) (-1000) 2 = 0) :=
  ⟨by norm_num, maintain_negative_diff_off 5 (-6) (-1000) 2 (by norm_num)⟩

/-- C8. When the deviation is at least `-precision` and at most the medium
band `5·P`, the tick issues no command at all, so the speed in force stays
the previous one — in particular for any trend, including trend at or above
the medium trend band. -/
theorem maintain_insignificant_diff_no_command (P diff trend : ℚ) (prev : ℕ)
    (hP : 0 ≤ P) (h1 : 0 - P ≤ diff) (h2 : diff ≤ P * 5) :
    tickCommands P diff trend = [] ∧ tickFinalSpeed P diff trend prev = prev := by
  have hc : tickCommands P diff trend = [] := by
    unfold tickCommands
    rw [if_neg (by linarith), if_neg (by linarith), if_neg (by linarith)]
  exact ⟨hc, by simp [tickFinalSpeed, hc]⟩

/-- Witness for C8: precision 5, deviation 20 (inside `[−5, 25]`), trend 1
(well above the medium trend band `5/100`), previous speed 3. -/
theorem maintain_insignificant_diff_no_command_witness :
    ((0 : ℚ) ≤ 5 ∧ (0 : ℚ) - 5 ≤ 20 ∧ (20 : ℚ) ≤ 5 * 5) ∧
      (tickCommands 5 20 1 = [] ∧ tickFinalSpeed 5 20 1 3 = 3) :=
  ⟨⟨by norm_num, by norm_num, by norm_num⟩,
   maintain_insignificant_diff_no_command 5 20 1 3 (by norm_num) (by norm_num)
     (by norm_num)⟩

/-- C1 (code bug). At precision 5 with deviation 51 (above the large band 50)
and trend 0 (below the small trend band 5/1000), the tick issues the commands
3, 2, 1 in order, because the three trend tests are non-exclusive nested
ranges; the speed in force at the end of the tick is therefore Low (1), not
High (3) as the spec's decision table intends. -/
theorem maintain_large_diff_small_trend_final_low :
    tickCommands 5 51 0 = [3, 2, 1] ∧
      tickFinalSpeed 5 51 0 0 = 1 ∧ (1 : ℕ) ≠ 3 := by
  have hc : tickCommands 5 51 0 = [3, 2, 1] := by
    norm_num [tickCommands]
  refine ⟨hc, by simp [tickFinalSpeed, hc], by decide⟩

/-- C3 (code bug). On the repository's own test inputs
(`test_all_same` in `src/test/test_trend.py`), constant-delta series do not
return the bare delta: the variance multiplier is not 0. The test expects
`0.1` for the first series and the spec expects `1.0` for the unit-spacing
series; the code returns `41/400 = 0.1025` and `61/60 ≈ 1.0167`. -/
theorem simple_slope_constant_delta_not_delta :
    simple_slope [(0, 0), (10, 1), (20, 2), (30, 3), (40, 4)] = 41 / 400 ∧
      (41 / 400 : ℚ) ≠ 1 / 10 ∧
      simple_slope [(0, 0), (1, 1), (2, 2), (3, 3)] = 61 / 60 ∧
      (61 / 60 : ℚ) ≠ 1 ∧
      simple_slope [(0, 0), (1, 1), (2, 2), (3, 3), (4, 4)] = 41 / 40 ∧
      (41 / 40 : ℚ) ≠ 1 := by
  refine ⟨?_, by norm_num, ?_, by norm_num, ?_, by norm_num⟩ <;>
    norm_num [simple_slope, delta_ys, delta_xs, y_values, adjPairs,
      List.getLastI]

/-- C9 (code bug). `Fan.set_speed` only raises for indices that miss the
4-element `SPEEDS` list under Python indexing; negative levels −1..−4 index
from the back and are silently driven as duty cycles. In particular speed −1
silently commands duty cycle 90 (the High duty), even though −1 is outside
{0, 1, 2, 3}. -/
theorem set_speed_negative_index_no_error :
    set_speed (-1) = Except.ok 90 ∧
      set_speed (-4) = Except.ok 0 ∧
      set_speed 4 = Except.error "invalid speed" ∧
      set_speed (-5) = Except.error "invalid speed" ∧
      set_speed 0 = Except.ok 0 ∧ set_speed 3 = Except.ok 90 := by
  refine ⟨rfl, rfl, rfl, rfl, rfl, rfl⟩

/-- C4. Starting from an empty buffer of capacity `cap ≥ 1`, pushing any
sequence of at least `cap` samples leaves exactly the last `cap` samples in
arrival order, and after every push (every take-prefix of the sequence) the
length never exceeds the capacity. -/
theorem nhistory_push_capacity (cap : ℕ) (l : List ℚ) (j : ℕ)
    (h1 : 1 ≤ cap) (h2 : cap ≤ l.length) :
    ((NHistory.init cap).pushAll l).values = l.drop (l.length - cap) ∧
      ((NHistory.init cap).pushAll l).values.length = cap ∧
      ((NHistory.init cap).pushAll (l.take j)).values.length ≤ cap := by
  have key := pushAll_values l (NHistory.init cap) (by simp [NHistory.init])
  simp only [NHistory.init, List.nil_append, List.length_nil, Nat.zero_add] at key
  have kt := pushAll_values (l.take j) (NHistory.init cap) (by simp [NHistory.init])
  simp only [NHistory.init, List.nil_append, List.length_nil, Nat.zero_add] at kt
  simp only [NHistory.init]
  refine ⟨key, ?_, ?_⟩
  · rw [key]
    simp only [List.length_drop]
    omega
  · rw [kt]
    simp only [List.length_drop, List.length_take]
    omega

/-- Witness for C4: capacity 2, samples `[1, 2, 3]`, prefix length 1; the
buffer ends as `[2, 3]`. -/
theorem nhistory_push_capacity_witness :
    (1 ≤ 2 ∧ 2 ≤ ([1, 2, 3] : List ℚ).length) ∧
      (((NHistory.init 2).pushAll [1, 2, 3]).values =
          ([1, 2, 3] : List ℚ).drop (([1, 2, 3] : List ℚ).length - 2) ∧
        ((NHistory.init 2).pushAll [1, 2, 3]).values.length = 2 ∧
        ((NHistory.init 2).pushAll (([1, 2, 3] : List ℚ).take 1)).values.length ≤ 2) :=
  ⟨⟨by decide, by decide⟩,
   nhistory_push_capacity 2 [1, 2, 3] 1 (by decide) (by decide)⟩

/-- C2 (counterexample). `simple_slope` does not use the mean and variance of
only the first `n` y-values: at `[(0,0),(1,1)]` the source returns `201/200`
(mean and squared deviations taken over both y-values) while the claimed
first-`n`-only computation returns `1`. -/
theorem simple_slope_firstN_counterexample :
    simple_slope [(0, 0), (1, 1)] = 201 / 200 ∧
      simple_slope_spec_firstN [(0, 0), (1, 1)] = 1 ∧
      (201 / 200 : ℚ) ≠ 1 := by
  refine ⟨?_, ?_, by norm_num⟩ <;>
    norm_num [simple_slope, simple_slope_spec_firstN, delta_ys, delta_xs,
      y_values, adjPairs, List.getLastI]

/-- C2 (amended). For every input of length ≥ 2, `simple_slope` returns
`avg_slope · (1 + variance_y / 100)` where `avg_y` is the mean of all `n+1`
y-values and `variance_y` sums the squared deviations of all `n+1` y-values
from that mean, divided by `n`. -/
theorem simple_slope_all_values_closed_form (l : List (ℚ × ℚ))
    (h : 2 ≤ l.length) :
    simple_slope l = avg_slope_of l * (1 + variance_all_y l / 100) :=
  simple_slope_closed l h

/-- Witness for the amended C2 at `[(0,0),(1,1),(2,5)]`. -/
theorem simple_slope_all_values_closed_form_witness :
    2 ≤ ([((0 : ℚ), (0 : ℚ)), (1, 1), (2, 5)] : List (ℚ × ℚ)).length ∧
      simple_slope [((0 : ℚ), (0 : ℚ)), (1, 1), (2, 5)] =
        avg_slope_of [((0 : ℚ), (0 : ℚ)), (1, 1), (2, 5)] *
          (1 + variance_all_y [((0 : ℚ), (0 : ℚ)), (1, 1), (2, 5)] / 100) :=
  ⟨by decide, simple_slope_all_values_closed_form [(0, 0), (1, 1), (2, 5)] (by decide)⟩

/-- C10. When the input has at least 2 points and its first and last
x-coordinates differ, the `avg_slope` factor telescopes to the endpoint
secant slope, and the returned trend is that secant slope times the variance
multiplier — so intermediate y-values enter only through the variance term. -/
theorem avg_slope_secant (l : List (ℚ × ℚ)) (h : 2 ≤ l.length)
    (hx : l.headI.1 ≠ l.getLastI.1) :
    avg_slope_of l = (l.getLastI.2 - l.headI.2) / (l.getLastI.1 - l.headI.1) ∧
      simple_slope l =
        ((l.getLastI.2 - l.headI.2) / (l.getLastI.1 - l.headI.1)) *
          (1 + variance_all_y l / 100) := by
  have hne : l ≠ [] := by
    intro he; rw [he] at h; simp at h
  have hn : ((l.length : ℚ) - 1) ≠ 0 := by
    have h2 : (2 : ℚ) ≤ (l.length : ℚ) := by exact_mod_cast h
    linarith
  have hb : l.getLastI.1 - l.headI.1 ≠ 0 := sub_ne_zero_of_ne (Ne.symm hx)
  have hsec : avg_slope_of l =
      (l.getLastI.2 - l.headI.2) / (l.getLastI.1 - l.headI.1) := by
    unfold avg_slope_of
    rw [delta_ys_sum l hne, delta_xs_sum l hne]
    field_simp
  refine ⟨hsec, ?_⟩
  rw [simple_slope_closed l h, hsec]

/-- Witness for C10 at `[(0,0),(1,1),(2,5)]`: the secant slope is `5/2`. -/
theorem avg_slope_secant_witness :
    (2 ≤ ([((0 : ℚ), (0 : ℚ)), (1, 1), (2, 5)] : List (ℚ × ℚ)).length ∧
        ([((0 : ℚ), (0 : ℚ)), (1, 1), (2, 5)] : List (ℚ × ℚ)).headI.1 ≠
          ([((0 : ℚ), (0 : ℚ)), (1, 1), (2, 5)] : List (ℚ × ℚ)).getLastI.1) ∧
      (avg_slope_of [((0 : ℚ), (0 : ℚ)), (1, 1), (2, 5)] =
          (([((0 : ℚ), (0 : ℚ)), (1, 1), (2, 5)] : List (ℚ × ℚ)).getLastI.2 -
              ([((0 : ℚ), (0 : ℚ)), (1, 1), (2, 5)] : List (ℚ × ℚ)).headI.2) /
            (([((0 : ℚ), (0 : ℚ)), (1, 1), (2, 5)] : List (ℚ × ℚ)).getLastI.1 -
              ([((0 : ℚ), (0 : ℚ)), (1, 1), (2, 5)] : List (ℚ × ℚ)).headI.1) ∧
        simple_slope [((0 : ℚ), (0 : ℚ)), (1, 1), (2, 5)] =
          ((([((0 : ℚ), (0 : ℚ)), (1, 1), (2, 5)] : List (ℚ × ℚ)).getLastI.2 -
              ([((0 : ℚ), (0 : ℚ)), (1, 1), (2, 5)] : List (ℚ × ℚ)).headI.2) /
            (([((0 : ℚ), (0 : ℚ)), (1, 1), (2, 5)] : List (ℚ × ℚ)).getLastI.1 -
              ([((0 : ℚ), (0 : ℚ)), (1, 1), (2, 5)] : List (ℚ × ℚ)).headI.1)) *
            (1 + variance_all_y [((0 : ℚ), (0 : ℚ)), (1, 1), (2, 5)] / 100)) :=
  ⟨⟨by decide, by norm_num [List.headI, List.getLastI]⟩,
   avg_slope_secant [(0, 0), (1, 1), (2, 5)] (by decide)
     (by norm_num [List.headI, List.getLastI])⟩

lemma variance_all_y_nonneg (l : List (ℚ × ℚ)) (h : 2 ≤ l.length) :
    0 ≤ variance_all_y l := by
  unfold variance_all_y
  apply div_nonneg
  · apply List.sum_nonneg
    intro x hx
    simp only [List.mem_map] at hx
    obtain ⟨y, _, rfl⟩ := hx
    positivity
  · have h2 : (2 : ℚ) ≤ (l.length : ℚ) := by exact_mod_cast h
    linarith

/-- C7 (counterexample). The original claim fails when the shared mean
per-step delta is 0: `[(0,0),(1,1),(2,0)]` and `[(0,0),(1,2),(2,0)]` have the
same `avg_slope` factor (0) and strictly different dispersion (variance 1/3
versus 4/3), yet both trends are exactly 0, so neither magnitude is strictly
larger. -/
theorem simple_slope_variance_monotone_counterexample :
    avg_slope_of [((0 : ℚ), (0 : ℚ)), (1, 1), (2, 0)] =
        avg_slope_of [((0 : ℚ), (0 : ℚ)), (1, 2), (2, 0)] ∧
      variance_all_y [((0 : ℚ), (0 : ℚ)), (1, 1), (2, 0)] = 1 / 3 ∧
      variance_all_y [((0 : ℚ), (0 : ℚ)), (1, 2), (2, 0)] = 4 / 3 ∧
      (1 / 3 : ℚ) ≠ 4 / 3 ∧
      simple_slope [((0 : ℚ), (0 : ℚ)), (1, 1), (2, 0)] = 0 ∧
      simple_slope [((0 : ℚ), (0 : ℚ)), (1, 2), (2, 0)] = 0 ∧
      ¬(|simple_slope [((0 : ℚ), (0 : ℚ)), (1, 1), (2, 0)]| <
          |simple_slope [((0 : ℚ), (0 : ℚ)), (1, 2), (2, 0)]|) := by
  have e1 : simple_slope [((0 : ℚ), (0 : ℚ)), (1, 1), (2, 0)] = 0 := by
    norm_num [simple_slope, delta_ys, delta_xs, y_values, adjPairs,
      List.getLastI]
  have e2 : simple_slope [((0 : ℚ), (0 : ℚ)), (1, 2), (2, 0)] = 0 := by
    norm_num [simple_slope, delta_ys, delta_xs, y_values, adjPairs,
      List.getLastI]
  refine ⟨?_, ?_, ?_, by norm_num, e1, e2, ?_⟩
  · norm_num [avg_slope_of, delta_ys, delta_xs, adjPairs]
  · norm_num [variance_all_y, mean_all_y]
  · norm_num [variance_all_y, mean_all_y]
  · rw [e1, e2]
    simp

/-- C7 (amended). With the same `avg_slope` factor, provided it is nonzero, a
strictly larger variance yields a strictly larger-magnitude trend; in
particular the more dispersed series `[(0,0),(1,0),(2,2),(3,3)]` gets a
strictly larger trend than `[(0,0),(1,1),(2,2),(3,3)]`, which has the same
mean per-step delta. -/
theorem simple_slope_variance_monotone (l₁ l₂ : List (ℚ × ℚ))
    (h₁ : 2 ≤ l₁.length) (h₂ : 2 ≤ l₂.length)
    (heq : avg_slope_of l₁ = avg_slope_of l₂)
    (hne : avg_slope_of l₁ ≠ 0)
    (hv : variance_all_y l₁ < variance_all_y l₂) :
    |simple_slope l₁| < |simple_slope l₂| ∧
      simple_slope [(0, 0), (1, 1), (2, 2), (3, 3)] <
        simple_slope [(0, 0), (1, 0), (2, 2), (3, 3)] := by
  constructor
  · rw [simple_slope_closed l₁ h₁, simple_slope_closed l₂ h₂, ← heq]
    rw [abs_mul, abs_mul]
    refine mul_lt_mul_of_pos_left ?_ (abs_pos.mpr hne)
    have hv1 : 0 ≤ variance_all_y l₁ := variance_all_y_nonneg l₁ h₁
    have p1 : (0 : ℚ) < 1 + variance_all_y l₁ / 100 := by linarith
    have p2 : (0 : ℚ) < 1 + variance_all_y l₂ / 100 := by linarith
    rw [abs_of_pos p1, abs_of_pos p2]
    linarith
  · norm_num [simple_slope, delta_ys, delta_xs, y_values, adjPairs,
      List.getLastI]

/-- Witness for C7 on the two series from the spec. -/
theorem simple_slope_variance_monotone_witness :
    (2 ≤ ([((0 : ℚ), (0 : ℚ)), (1, 1), (2, 2), (3, 3)] : List (ℚ × ℚ)).length ∧
      2 ≤ ([((0 : ℚ), (0 : ℚ)), (1, 0), (2, 2), (3, 3)] : List (ℚ × ℚ)).length ∧
      avg_slope_of [((0 : ℚ), (0 : ℚ)), (1, 1), (2, 2), (3, 3)] =
        avg_slope_of [((0 : ℚ), (0 : ℚ)), (1, 0), (2, 2), (3, 3)] ∧
      avg_slope_of [((0 : ℚ), (0 : ℚ)), (1, 1), (2, 2), (3, 3)] ≠ 0 ∧
      variance_all_y [((0 : ℚ), (0 : ℚ)), (1, 1), (2, 2), (3, 3)] <
        variance_all_y [((0 : ℚ), (0 : ℚ)), (1, 0), (2, 2), (3, 3)]) ∧
      (|simple_slope [((0 : ℚ), (0 : ℚ)), (1, 1), (2, 2), (3, 3)]| <
          |simple_slope [((0 : ℚ), (0 : ℚ)), (1, 0), (2, 2), (3, 3)]| ∧
        simple_slope [(0, 0), (1, 1), (2, 2), (3, 3)] <
          simple_slope [(0, 0), (1, 0), (2, 2), (3, 3)]) :=
  ⟨⟨by decide, by decide,
    by norm_num [avg_slope_of, delta_ys, delta_xs, adjPairs],
    by norm_num [avg_slope_of, delta_ys, delta_xs, adjPairs],
    by norm_num [variance_all_y, mean_all_y]⟩,
   simple_slope_variance_monotone [(0, 0), (1, 1), (2, 2), (3, 3)]
     [(0, 0), (1, 0), (2, 2), (3, 3)] (by decide) (by decide)
     (by norm_num [avg_slope_of, delta_ys, delta_xs, adjPairs])
     (by norm_num [avg_slope_of, delta_ys, delta_xs, adjPairs])
     (by norm_num [variance_all_y, mean_all_y])⟩

end Smoke
